import Mathlib

/-!
Verification of the `Trailer<T>` container (src/src/lib.rs).

The Rust code packs a header value of type `T` and a trailing byte buffer
of a caller-chosen `capacity` into one heap allocation of
`size_of::<T>() + capacity` bytes, aligned to `align_of::<T>()`,
obtained with `alloc_zeroed`.

Shallow embedding used here:
* memory is a function `Nat → Nat` from addresses to byte values;
* the allocator is a bump allocator with an upper limit `max`; a failed
  allocation returns the null address `0`, exactly as `alloc_zeroed`
  returns a null pointer on failure;
* a Rust type `T` stored in memory is abstracted by a `TypeRepr T`:
  its `size_of`, `align_of`, and the byte encoding used by `ptr.write`
  (typed store) and `*ptr` (typed load);
* each method of `Trailer<T>` becomes a function on this state.
-/

/-- Model of a Rust type's memory representation: `size_of`, `align_of`
(always positive in Rust), and the byte encoding used by typed stores
(`ptr.write`) and typed loads (`*ptr`). Loading the bytes just stored
yields the stored value. -/
structure TypeRepr (T : Type) where
  size : Nat
  align : Nat
  alignPos : 0 < align
  encode : T → List Nat
  decode : List Nat → T
  encode_length : ∀ t, (encode t).length = size
  decode_encode : ∀ t, decode (encode t) = t

/-- The `Trailer<T>` struct itself: the fields `ptr: *mut u8` and
`size: usize` (the `PhantomData<T>` field has no runtime content). -/
structure Trailer (T : Type) where
  ptr : Nat
  size : Nat

/-- The heap: memory contents, the next free address of the bump
allocator, and the largest address the allocator can hand out. -/
structure Heap where
  mem : Nat → Nat
  next : Nat
  max : Nat

/-- Round `n` up to the next multiple of `a`. -/
def alignUp (n a : Nat) : Nat := (n + a - 1) / a * a

/-- Copy the byte list `bs` into memory starting at address `p`. -/
def writeBytes (m : Nat → Nat) (p : Nat) (bs : List Nat) : Nat → Nat :=
  fun a => if p ≤ a ∧ a < p + bs.length then bs.getD (a - p) 0 else m a

/-- Read `n` consecutive bytes starting at address `p`. -/
def readBytes (m : Nat → Nat) (p n : Nat) : List Nat :=
  (List.range n).map fun i => m (p + i)

/-- Model of `alloc::alloc_zeroed`: on success, return a fresh block of
`size` zeroed bytes at an address aligned to `align`; on failure (the
request does not fit under the allocator's limit) return the null
address `0` and leave the heap unchanged. -/
def allocZeroed (size align : Nat) (h : Heap) : Nat × Heap :=
  let p := alignUp h.next align
  if p + size ≤ h.max then
    (p, ⟨fun a => if p ≤ a ∧ a < p + size then 0 else h.mem a, p + size, h.max⟩)
  else
    (0, h)

/-- `Trailer::allocate`: `size = size_of::<T>() + capacity`, a layout at
`align_of::<T>()`, and `alloc_zeroed`; the struct records the returned
pointer and the total size. -/
def Trailer.allocate {T : Type} (R : TypeRepr T) (capacity : Nat) (h : Heap) :
    Trailer T × Heap :=
  let size := R.size + capacity
  let r := allocZeroed size R.align h
  (⟨r.1, size⟩, r.2)

/-- `Trailer::new`: allocate, then `ptr.write(T::default())`. The
parameter `d` is the value produced by `T`'s `Default` instance. -/
def Trailer.new {T : Type} (R : TypeRepr T) (d : T) (capacity : Nat) (h : Heap) :
    Trailer T × Heap :=
  let r := Trailer.allocate R capacity h
  (r.1, { r.2 with mem := writeBytes r.2.mem r.1.ptr (R.encode d) })

/-- `Trailer::from`: allocate, then `ptr.write(t)` with the caller's
value (requires `T: Copy` in Rust). -/
def Trailer.fromValue {T : Type} (R : TypeRepr T) (v : T) (capacity : Nat) (h : Heap) :
    Trailer T × Heap :=
  let r := Trailer.allocate R capacity h
  (r.1, { r.2 with mem := writeBytes r.2.mem r.1.ptr (R.encode v) })

/-- `Trailer::bytes`: the slice of `self.size - size_of::<T>()` bytes
starting at `self.ptr.add(size_of::<T>())`. -/
def Trailer.bytes {T : Type} (R : TypeRepr T) (t : Trailer T) (h : Heap) : List Nat :=
  readBytes h.mem (t.ptr + R.size) (t.size - R.size)

/-- The store `self.bytes_mut()[i] = v`: one byte written at offset `i`
of the trailer region (theorems about it carry the slice's bounds check
`i < self.size - size_of::<T>()` as a hypothesis). -/
def Trailer.writeByte {T : Type} (R : TypeRepr T) (t : Trailer T) (i v : Nat)
    (h : Heap) : Heap :=
  { h with mem := fun a => if a = t.ptr + R.size + i then v else h.mem a }

/-- `Deref for Trailer`: the typed load `&*(self.ptr as *const T)`. -/
def Trailer.deref {T : Type} (R : TypeRepr T) (t : Trailer T) (h : Heap) : T :=
  R.decode (readBytes h.mem t.ptr R.size)

/-- A typed store of a whole `T` through `DerefMut`'s `&mut T`. -/
def Trailer.setHeader {T : Type} (R : TypeRepr T) (t : Trailer T) (v : T)
    (h : Heap) : Heap :=
  { h with mem := writeBytes h.mem t.ptr (R.encode v) }

/-- Mutation of the header through `DerefMut` (for instance a field
assignment `a.field1 = v`): load the current header value, apply the
update, store the result back. -/
def Trailer.modifyHeader {T : Type} (R : TypeRepr T) (t : Trailer T) (f : T → T)
    (h : Heap) : Heap :=
  Trailer.setHeader R t (f (Trailer.deref R t h)) h

/-- Observable events of `Drop for Trailer`. -/
inductive DropEvent (T : Type) where
  | finalize (v : T)
  | deallocate (p size align : Nat)
deriving DecidableEq

/-- `Drop for Trailer`: `ptr::drop_in_place(self.ptr as *mut T)` runs
`T`'s destructor on the current header value, then `alloc::dealloc`
releases the block with a layout of `self.size` bytes at
`align_of::<T>()`. -/
def Trailer.dropTrace {T : Type} (R : TypeRepr T) (t : Trailer T) (h : Heap) :
    List (DropEvent T) :=
  [DropEvent.finalize (Trailer.deref R t h),
   DropEvent.deallocate t.ptr t.size R.align]

/-- The derived `Clone` impl: clone each field (`*mut u8` and `usize`
clone by copy, `PhantomData` is a unit), producing a second struct with
the same pointer and size. -/
def Trailer.clone {T : Type} (t : Trailer T) : Trailer T :=
  ⟨t.ptr, t.size⟩

/-- The derived `PartialEq` impl: field-wise comparison of `ptr` and
`size` (`PhantomData` always compares equal). -/
def Trailer.peq {T : Type} (a b : Trailer T) : Bool :=
  decide (a.ptr = b.ptr) && decide (a.size = b.size)

/-- Test for the finalization event of a drop trace. -/
def DropEvent.isFin {T : Type} : DropEvent T → Bool
  | .finalize _ => true
  | .deallocate _ _ _ => false

/-- Memory representation of Rust's `bool`: one byte, alignment one,
`true` stored as `1` and `false` as `0`. -/
def boolTypeRepr : TypeRepr Bool where
  size := 1
  align := 1
  alignPos := Nat.one_pos
  encode b := [if b then 1 else 0]
  decode bs := bs.getD 0 0 != 0
  encode_length := by intro b; cases b <;> rfl
  decode_encode := by intro b; cases b <;> rfl

/-! ### The test's header type `InnerHdr { field1: usize, field2: bool }`
on a 64-bit little-endian target -/

/-- Rust `usize` on a 64-bit target. -/
abbrev U64 := Fin (2 ^ 64)

/-- The header struct of the regression test: `field1: usize`,
`field2: bool`. -/
structure InnerHdr where
  field1 : U64
  field2 : Bool
deriving DecidableEq

/-- The derived `Default` value of `InnerHdr`: `field1 = 0`,
`field2 = false`. -/
def InnerHdr.defaultVal : InnerHdr := ⟨⟨0, by norm_num⟩, false⟩

/-- Little-endian byte decomposition: `k` bytes of `n`. -/
def leBytes : Nat → Nat → List Nat
  | 0, _ => []
  | k + 1, n => n % 256 :: leBytes k (n / 256)

/-- Recompose a natural number from little-endian bytes. -/
def fromLE : List Nat → Nat
  | [] => 0
  | b :: bs => b % 256 + 256 * fromLE bs

/-- Memory representation of `InnerHdr` on a 64-bit little-endian target:
size 16, alignment 8; `field1` occupies bytes 0-7 little-endian,
`field2` is one byte (`1`/`0`) at offset 8, followed by 7 padding
bytes. -/
def innerTypeRepr : TypeRepr InnerHdr where
  size := 16
  align := 8
  alignPos := by norm_num
  encode v :=
    leBytes 8 v.field1.val ++ ((if v.field2 then 1 else 0) :: [0, 0, 0, 0, 0, 0, 0])
  decode bs :=
    ⟨⟨fromLE (bs.take 8) % 2 ^ 64, Nat.mod_lt _ (by norm_num)⟩, bs.getD 8 0 != 0⟩
  encode_length := by
    have hlen : ∀ (k m : Nat), (leBytes k m).length = k := by
      intro k
      induction k with
      | zero => intro m; rfl
      | succ k ih => intro m; simp [leBytes, ih]
    intro v
    simp [hlen]
  decode_encode := by
    have hlen : ∀ (k m : Nat), (leBytes k m).length = k := by
      intro k
      induction k with
      | zero => intro m; rfl
      | succ k ih => intro m; simp [leBytes, ih]
    have hfrom : ∀ (k m : Nat), fromLE (leBytes k m) = m % 256 ^ k := by
      intro k
      induction k with
      | zero => intro m; simp [leBytes, fromLE, Nat.mod_one]
      | succ k ih =>
        intro m
        simp only [leBytes, fromLE, ih]
        rw [pow_succ', Nat.mod_mul]
        simp
    have hgetD : ∀ (l₁ l₂ : List Nat) (j e : Nat),
        (l₁ ++ l₂).getD (l₁.length + j) e = l₂.getD j e := by
      intro l₁ l₂ j e
      induction l₁ with
      | nil => simp
      | cons x l ih =>
        show (x :: (l ++ l₂)).getD (l.length + 1 + j) e = l₂.getD j e
        rw [show l.length + 1 + j = (l.length + j) + 1 from by omega]
        rw [List.getD_cons_succ]
        exact ih
    intro v
    obtain ⟨⟨n, hn⟩, b⟩ := v
    have htake :
        (leBytes 8 n ++ ((if b then 1 else 0) :: [0, 0, 0, 0, 0, 0, 0])).take 8 =
          leBytes 8 n := by
      conv_lhs =>
        rw [show (8 : Nat) = (leBytes 8 n).length from (hlen 8 n).symm]
      exact List.take_left _ _
    have hget :
        (leBytes 8 n ++ ((if b then 1 else 0) :: [0, 0, 0, 0, 0, 0, 0])).getD 8 0 =
          if b then 1 else 0 := by
      have h0 := hgetD (leBytes 8 n)
        ((if b then 1 else 0) :: [0, 0, 0, 0, 0, 0, 0]) 0 0
      rw [hlen] at h0
      simpa using h0
    simp only []
    rw [InnerHdr.mk.injEq]
    constructor
    · rw [Fin.mk.injEq]
      rw [htake, hfrom]
      rw [show (256 : Nat) ^ 8 = 2 ^ 64 from by norm_num]
      have h2 : n % 2 ^ 64 % 2 ^ 64 = n % 2 ^ 64 := by simp
      rw [h2, Nat.mod_eq_of_lt hn]
    · rw [hget]
      cases b <;> rfl

/-! ### Concrete heaps and the regression scenario -/

/-- A fresh heap: all memory zero, allocation starts at address 8,
the allocator can serve addresses up to 1000. -/
def heap0 : Heap := ⟨fun _ => 0, 8, 1000⟩

/-- A heap whose allocator can only serve addresses up to 10, so a
request of 101 bytes fails; memory initially holds the garbage byte
170 everywhere. -/
def tinyHeap : Heap := ⟨fun _ => 170, 8, 10⟩

/-- Fresh heap for the regression scenario: the garbage byte 170 in all
of memory, allocation frontier at address 8, generous allocator
limit. -/
def heap9 : Heap := ⟨fun _ => 170, 8, 100000⟩

/-- The construction step of the regression scenario:
`Trailer::<InnerHdr>::new(100)`. -/
def scenarioStart : Trailer InnerHdr × Heap :=
  Trailer.new innerTypeRepr InnerHdr.defaultVal 100 heap9

/-- The heap after the whole regression scenario: set `field1 = 12345`
and `field2 = true` through `DerefMut`, then store bytes 1,2,3,4 at
trailer offsets 0,1,2,3 through `bytes_mut`. -/
def scenarioHeap : Heap :=
  Trailer.writeByte innerTypeRepr scenarioStart.1 3 4
    (Trailer.writeByte innerTypeRepr scenarioStart.1 2 3
      (Trailer.writeByte innerTypeRepr scenarioStart.1 1 2
        (Trailer.writeByte innerTypeRepr scenarioStart.1 0 1
          (Trailer.modifyHeader innerTypeRepr scenarioStart.1
            (fun v => { v with field2 := true })
            (Trailer.modifyHeader innerTypeRepr scenarioStart.1
              (fun v => { v with field1 := ⟨12345, by norm_num⟩ })
              scenarioStart.2)))))

/-! ### Lemmas about the memory primitives -/

theorem alignUp_dvd (n a : Nat) : a ∣ alignUp n a :=
  dvd_mul_left a ((n + a - 1) / a)

theorem writeBytes_outside (m : Nat → Nat) (p : Nat) (bs : List Nat) (a : Nat)
    (h : a < p ∨ p + bs.length ≤ a) : writeBytes m p bs a = m a := by
  unfold writeBytes
  rw [if_neg]
  omega

theorem readBytes_congr (m1 m2 : Nat → Nat) (p n : Nat)
    (hc : ∀ i, i < n → m1 (p + i) = m2 (p + i)) :
    readBytes m1 p n = readBytes m2 p n := by
  unfold readBytes
  apply List.map_congr_left
  intro i hi
  exact hc i (List.mem_range.mp hi)

theorem length_readBytes (m : Nat → Nat) (p n : Nat) :
    (readBytes m p n).length = n := by
  simp [readBytes]

theorem readBytes_writeBytes (m : Nat → Nat) (p : Nat) (bs : List Nat) :
    readBytes (writeBytes m p bs) p bs.length = bs := by
  apply List.ext_getElem
  · simp [readBytes]
  · intro i h1 h2
    simp only [readBytes, List.getElem_map, List.getElem_range, writeBytes]
    rw [if_pos (by omega)]
    rw [show p + i - p = i from by omega]
    exact List.getD_eq_getElem bs 0 h2

/-! ### Lemmas about construction -/

theorem fromValue_eq_new {T : Type} (R : TypeRepr T) (v : T) (c : Nat) (h : Heap) :
    Trailer.fromValue R v c h = Trailer.new R v c h := rfl

theorem new_size {T : Type} (R : TypeRepr T) (d : T) (c : Nat) (h : Heap) :
    (Trailer.new R d c h).1.size = R.size + c := rfl

theorem new_success_spec {T : Type} (R : TypeRepr T) (d : T) (c : Nat) (h : Heap)
    (hp : (Trailer.new R d c h).1.ptr ≠ 0) :
    (Trailer.new R d c h).1.ptr = alignUp h.next R.align ∧
    alignUp h.next R.align + (R.size + c) ≤ h.max ∧
    (Trailer.new R d c h).2.next = alignUp h.next R.align + (R.size + c) ∧
    (Trailer.new R d c h).2.mem = writeBytes
      (fun a => if alignUp h.next R.align ≤ a ∧ a < alignUp h.next R.align + (R.size + c)
                then 0 else h.mem a)
      (alignUp h.next R.align) (R.encode d) := by
  by_cases hc : alignUp h.next R.align + (R.size + c) ≤ h.max
  · refine ⟨?_, hc, ?_, ?_⟩ <;>
      simp [Trailer.new, Trailer.allocate, allocZeroed, hc]
  · exfalso
    apply hp
    simp [Trailer.new, Trailer.allocate, allocZeroed, hc]

theorem deref_new {T : Type} (R : TypeRepr T) (d : T) (c : Nat) (h : Heap) :
    Trailer.deref R (Trailer.new R d c h).1 (Trailer.new R d c h).2 = d := by
  unfold Trailer.deref
  have hm : (Trailer.new R d c h).2.mem =
      writeBytes (Trailer.allocate R c h).2.mem (Trailer.new R d c h).1.ptr
        (R.encode d) := rfl
  rw [hm]
  rw [show R.size = (R.encode d).length from (R.encode_length d).symm]
  rw [readBytes_writeBytes]
  exact R.decode_encode d

theorem bytes_new_zero {T : Type} (R : TypeRepr T) (d : T) (c : Nat) (h : Heap)
    (hp : (Trailer.new R d c h).1.ptr ≠ 0) :
    Trailer.bytes R (Trailer.new R d c h).1 (Trailer.new R d c h).2 =
      List.replicate c 0 := by
  obtain ⟨hptr, hmax, hnext, hmem⟩ := new_success_spec R d c h hp
  unfold Trailer.bytes
  rw [new_size, hmem, hptr]
  rw [show R.size + c - R.size = c from by omega]
  rw [List.eq_replicate_iff]
  refine ⟨length_readBytes _ _ _, ?_⟩
  intro b hb
  simp only [readBytes, List.mem_map, List.mem_range] at hb
  obtain ⟨i, hi, rfl⟩ := hb
  rw [writeBytes_outside]
  · rw [if_pos (by constructor <;> omega)]
  · rw [R.encode_length]
    omega

/-! ### Claims -/

/-- C1: for every header type `T` and every capacity for which
construction succeeds (the allocator did not return null), the
constructed container's total storage size equals
`size_of::<T>() + capacity`, and the storage block's address is a
multiple of `T`'s required alignment. This holds for both
`Trailer::new` and `Trailer::from`. -/
theorem trailer_construct_size_align {T : Type} (R : TypeRepr T) (d v : T)
    (c : Nat) (h : Heap)
    (hp : (Trailer.new R d c h).1.ptr ≠ 0)
    (hq : (Trailer.fromValue R v c h).1.ptr ≠ 0) :
    ((Trailer.new R d c h).1.size = R.size + c ∧
      R.align ∣ (Trailer.new R d c h).1.ptr) ∧
    ((Trailer.fromValue R v c h).1.size = R.size + c ∧
      R.align ∣ (Trailer.fromValue R v c h).1.ptr) := by
  have key : ∀ w : T, (Trailer.new R w c h).1.ptr ≠ 0 →
      (Trailer.new R w c h).1.size = R.size + c ∧
        R.align ∣ (Trailer.new R w c h).1.ptr := by
    intro w hw
    obtain ⟨hptr, -, -, -⟩ := new_success_spec R w c h hw
    refine ⟨new_size R w c h, ?_⟩
    rw [hptr]
    exact alignUp_dvd h.next R.align
  rw [fromValue_eq_new] at hq ⊢
  exact ⟨key d hp, key v hq⟩

/-- C1 witness: instantiated with the `bool` header, capacity 4, and a
fresh heap; the allocation succeeds at address 8 and the theorem's
conclusion holds there. -/
theorem trailer_construct_size_align_witness :
    ((Trailer.new boolTypeRepr false 4 heap0).1.size = boolTypeRepr.size + 4 ∧
      boolTypeRepr.align ∣ (Trailer.new boolTypeRepr false 4 heap0).1.ptr) ∧
    ((Trailer.fromValue boolTypeRepr true 4 heap0).1.size = boolTypeRepr.size + 4 ∧
      boolTypeRepr.align ∣ (Trailer.fromValue boolTypeRepr true 4 heap0).1.ptr) :=
  trailer_construct_size_align boolTypeRepr false true 4 heap0
    (by decide) (by decide)

/-- C2: immediately after a successful construction, by `Trailer::new`
or by `Trailer::from`, and before any explicit write, every byte of the
trailer region (the whole of `bytes()`) reads as zero. -/
theorem trailer_bytes_zero_after_construction {T : Type} (R : TypeRepr T)
    (d v : T) (c : Nat) (h : Heap)
    (hp : (Trailer.new R d c h).1.ptr ≠ 0)
    (hq : (Trailer.fromValue R v c h).1.ptr ≠ 0) :
    Trailer.bytes R (Trailer.new R d c h).1 (Trailer.new R d c h).2 =
      List.replicate c 0 ∧
    Trailer.bytes R (Trailer.fromValue R v c h).1 (Trailer.fromValue R v c h).2 =
      List.replicate c 0 := by
  rw [fromValue_eq_new] at hq ⊢
  exact ⟨bytes_new_zero R d c h hp, bytes_new_zero R v c h hq⟩

/-- C2 witness: with the `bool` header and capacity 4 on a fresh heap,
both constructors leave the four trailer bytes equal to zero. -/
theorem trailer_bytes_zero_after_construction_witness :
    Trailer.bytes boolTypeRepr (Trailer.new boolTypeRepr false 4 heap0).1
      (Trailer.new boolTypeRepr false 4 heap0).2 = List.replicate 4 0 ∧
    Trailer.bytes boolTypeRepr (Trailer.fromValue boolTypeRepr true 4 heap0).1
      (Trailer.fromValue boolTypeRepr true 4 heap0).2 = List.replicate 4 0 :=
  trailer_bytes_zero_after_construction boolTypeRepr false true 4 heap0
    (by decide) (by decide)

/-- C3: the header region and the trailer region are disjoint: a store
`bytes_mut()[i] = v` at any trailer offset never changes the value read
through `Deref`, and mutating the header through `DerefMut` (whether a
whole-value store or a read-modify-write) never changes `bytes()`. -/
theorem trailer_header_trailer_disjoint {T : Type} (R : TypeRepr T)
    (t : Trailer T) (h : Heap) :
    (∀ i v₀, Trailer.deref R t (Trailer.writeByte R t i v₀ h) =
      Trailer.deref R t h) ∧
    (∀ v₀, Trailer.bytes R t (Trailer.setHeader R t v₀ h) =
      Trailer.bytes R t h) ∧
    (∀ f, Trailer.bytes R t (Trailer.modifyHeader R t f h) =
      Trailer.bytes R t h) := by
  have hset : ∀ v₀, Trailer.bytes R t (Trailer.setHeader R t v₀ h) =
      Trailer.bytes R t h := by
    intro v₀
    unfold Trailer.bytes Trailer.setHeader
    apply readBytes_congr
    intro i hi
    apply writeBytes_outside
    right
    rw [R.encode_length]
    omega
  refine ⟨?_, hset, fun f => hset _⟩
  intro i v₀
  unfold Trailer.deref Trailer.writeByte
  congr 1
  apply readBytes_congr
  intro j hj
  simp only []
  rw [if_neg (by omega)]

/-- C4: immediately after default construction by `Trailer::new` with a
default value `d`, reading the header through `Deref` yields exactly
`d`. -/
theorem trailer_new_deref_default {T : Type} (R : TypeRepr T) (d : T)
    (c : Nat) (h : Heap)
    (hp : (Trailer.new R d c h).1.ptr ≠ 0) :
    Trailer.deref R (Trailer.new R d c h).1 (Trailer.new R d c h).2 = d :=
  deref_new R d c h

/-- C4 witness: with the `bool` header (default `false`), capacity 4,
fresh heap. -/
theorem trailer_new_deref_default_witness :
    Trailer.deref boolTypeRepr (Trailer.new boolTypeRepr false 4 heap0).1
      (Trailer.new boolTypeRepr false 4 heap0).2 = false :=
  trailer_new_deref_default boolTypeRepr false 4 heap0 (by decide)

/-- C5: immediately after copy construction by `Trailer::from(v, c)`,
reading the header through `Deref` yields a value equal to `v`. -/
theorem trailer_fromValue_deref_value {T : Type} (R : TypeRepr T) (v : T)
    (c : Nat) (h : Heap)
    (hp : (Trailer.fromValue R v c h).1.ptr ≠ 0) :
    Trailer.deref R (Trailer.fromValue R v c h).1
      (Trailer.fromValue R v c h).2 = v := by
  rw [fromValue_eq_new]
  exact deref_new R v c h

/-- C5 witness: with the `bool` header and the value `true`. -/
theorem trailer_fromValue_deref_value_witness :
    Trailer.deref boolTypeRepr (Trailer.fromValue boolTypeRepr true 4 heap0).1
      (Trailer.fromValue boolTypeRepr true 4 heap0).2 = true :=
  trailer_fromValue_deref_value boolTypeRepr true 4 heap0 (by decide)

/-- C6: teardown of a container built by `Trailer::new(c)` — even with
the header never touched after construction — runs `T`'s finalization
exactly once, on the current header value (here the default `d`), and
only afterwards releases the whole block in one deallocation whose size
`size_of::<T>() + c` and alignment `align_of::<T>()` are the ones used
at allocation time. -/
theorem trailer_drop_finalize_then_dealloc {T : Type} (R : TypeRepr T) (d : T)
    (c : Nat) (h : Heap)
    (hp : (Trailer.new R d c h).1.ptr ≠ 0) :
    ((Trailer.dropTrace R (Trailer.new R d c h).1
        (Trailer.new R d c h).2).filter DropEvent.isFin).length = 1 ∧
    Trailer.dropTrace R (Trailer.new R d c h).1 (Trailer.new R d c h).2 =
      [DropEvent.finalize d,
       DropEvent.deallocate (Trailer.new R d c h).1.ptr (R.size + c) R.align] := by
  constructor
  · simp [Trailer.dropTrace, DropEvent.isFin]
  · unfold Trailer.dropTrace
    rw [deref_new R d c h, new_size R d c h]

/-- C6 witness: with the `bool` header, capacity 4 and a fresh heap, the
drop trace finalizes `false` once and then deallocates the 5-byte block
at address 8 with alignment 1. -/
theorem trailer_drop_finalize_then_dealloc_witness :
    ((Trailer.dropTrace boolTypeRepr (Trailer.new boolTypeRepr false 4 heap0).1
        (Trailer.new boolTypeRepr false 4 heap0).2).filter
          DropEvent.isFin).length = 1 ∧
    Trailer.dropTrace boolTypeRepr (Trailer.new boolTypeRepr false 4 heap0).1
        (Trailer.new boolTypeRepr false 4 heap0).2 =
      [DropEvent.finalize false,
       DropEvent.deallocate (Trailer.new boolTypeRepr false 4 heap0).1.ptr
         (boolTypeRepr.size + 4) boolTypeRepr.align] :=
  trailer_drop_finalize_then_dealloc boolTypeRepr false 4 heap0 (by decide)

/-- C7 evidence: the derived `Clone` impl duplicates the container by a
simple field copy. In general `clone` preserves the `ptr` and `size`
fields, and on a concrete successfully constructed container the clone
is a second live container over the same non-null block, whose drop
deallocates exactly the same block again. -/
theorem trailer_clone_shares_block :
    (∀ (T : Type) (t : Trailer T),
      (Trailer.clone t).ptr = t.ptr ∧ (Trailer.clone t).size = t.size) ∧
    ((Trailer.new boolTypeRepr false 4 heap0).1.ptr ≠ 0 ∧
      (Trailer.clone (Trailer.new boolTypeRepr false 4 heap0).1).ptr =
        (Trailer.new boolTypeRepr false 4 heap0).1.ptr ∧
      Trailer.dropTrace boolTypeRepr
          (Trailer.clone (Trailer.new boolTypeRepr false 4 heap0).1)
          (Trailer.new boolTypeRepr false 4 heap0).2 =
        Trailer.dropTrace boolTypeRepr (Trailer.new boolTypeRepr false 4 heap0).1
          (Trailer.new boolTypeRepr false 4 heap0).2) := by
  constructor
  · intro T t
    exact ⟨rfl, rfl⟩
  · refine ⟨by decide, rfl, rfl⟩

/-- C8 evidence: when the allocator cannot satisfy the request,
`alloc_zeroed` returns null, but `Trailer::new` performs no null check:
it still writes the default header through the null pointer (the byte
at address 0 becomes the encoding of the default value, 0, although
the heap still holds the garbage byte 170 at the untouched address 1
and its allocation frontier never moved) and returns a container whose
`ptr` is null — construction is not fatal and leaves partial state. -/
theorem trailer_alloc_failure_returns_null_container :
    (Trailer.new boolTypeRepr false 100 tinyHeap).1.ptr = 0 ∧
    (Trailer.new boolTypeRepr false 100 tinyHeap).1.size = 101 ∧
    (Trailer.new boolTypeRepr false 100 tinyHeap).2.mem 0 = 0 ∧
    (Trailer.new boolTypeRepr false 100 tinyHeap).2.mem 1 = 170 ∧
    (Trailer.new boolTypeRepr false 100 tinyHeap).2.next = 8 := by
  decide

/-- C10: the derived `PartialEq` compares exactly the `ptr` and `size`
fields and ignores the pointed-to contents; every container compares
equal to itself; and two separately constructed containers (the second
built from the heap the first construction left behind) with equal
header values and equal trailer bytes still compare unequal. -/
theorem trailer_peq_compares_ptr_size :
    (∀ (T : Type) (a b : Trailer T),
      Trailer.peq a b = true ↔ a.ptr = b.ptr ∧ a.size = b.size) ∧
    (∀ (T : Type) (a : Trailer T), Trailer.peq a a = true) ∧
    (Trailer.peq (Trailer.new boolTypeRepr false 4 heap0).1
        (Trailer.new boolTypeRepr false 4
          (Trailer.new boolTypeRepr false 4 heap0).2).1 = false ∧
      Trailer.deref boolTypeRepr (Trailer.new boolTypeRepr false 4 heap0).1
          (Trailer.new boolTypeRepr false 4
            (Trailer.new boolTypeRepr false 4 heap0).2).2 =
        Trailer.deref boolTypeRepr
          (Trailer.new boolTypeRepr false 4
            (Trailer.new boolTypeRepr false 4 heap0).2).1
          (Trailer.new boolTypeRepr false 4
            (Trailer.new boolTypeRepr false 4 heap0).2).2 ∧
      Trailer.bytes boolTypeRepr (Trailer.new boolTypeRepr false 4 heap0).1
          (Trailer.new boolTypeRepr false 4
            (Trailer.new boolTypeRepr false 4 heap0).2).2 =
        Trailer.bytes boolTypeRepr
          (Trailer.new boolTypeRepr false 4
            (Trailer.new boolTypeRepr false 4 heap0).2).1
          (Trailer.new boolTypeRepr false 4
            (Trailer.new boolTypeRepr false 4 heap0).2).2) := by
  refine ⟨?_, ?_, by decide⟩
  · intro T a b
    simp [Trailer.peq]
  · intro T a
    simp [Trailer.peq]

/-- C9: the regression scenario of the test `tests::default`:
default-construct `Trailer<InnerHdr>` with capacity 100, set
`field1 = 12345` and `field2 = true`, write bytes 1,2,3,4 at trailer
offsets 0 through 3; the first 20 bytes of the raw storage then read
`[57,48,0,0,0,0,0,0, 1,0,0,0,0,0,0,0, 1,2,3,4]`. -/
theorem trailer_scenario_raw_bytes :
    readBytes scenarioHeap.mem scenarioStart.1.ptr 20 =
      [57, 48, 0, 0, 0, 0, 0, 0, 1, 0, 0, 0, 0, 0, 0, 0, 1, 2, 3, 4] := by
  decide
